import Mathlib

/-!
# Inkling — client capture/upload state machine and server relay, shallow embedding

This file embeds the Inkling repository's client component (`App.tsx`, the
capture/upload/result state machine) and the relevant parts of its server
(`server.js`, the `/api/ocr` upload pipeline) as executable Lean definitions,
and proves the specification's claims about them.

The client component keeps React state `mode`, `result`, `error`, `preview`
and refs `fileInputRef`, `videoRef`, `canvasRef`, `streamRef`.  We model the
whole of that mutable state as one record `AppState`, and each handler
(`handleOCR`, `handleFileSelect`, `startCamera`, `stopCamera`, `capturePhoto`,
`handleReset`, `handleCopy`, the result textarea's `onChange`) as a pure
function on `AppState`, parameterised by the outcomes of the platform calls it
awaits (`fetch`, `response.json()`, `getUserMedia`, `canvas.toBlob`).  React's
`setState` bails out when the new value equals the current one, so `setMode`
is modelled with that bail-out; `trace` records the committed sequence of
`mode` values so that transition claims can be stated.  `tracks` records the
platform-side media tracks ever granted, so that "stop all tracks" is
observable; `relayCalls` counts initiated `fetch("/api/ocr")` requests, and
`encodeReqs` records `canvas.toBlob` encode requests.
-/

set_option autoImplicit false

namespace Inkling

/-- `type Mode = "home" | "camera" | "processing" | "result"` -/
inductive Mode where
  | home
  | camera
  | processing
  | result
deriving DecidableEq, Repr

/-- The `data.text` field of a parsed JSON response body: absent
(`typeof data.text === "undefined"`), present but not a string, or a string. -/
inductive TextField where
  | absent
  | nonString
  | str (s : String)
deriving DecidableEq, Repr

/-- Outcome of `response.json()`: either the body fails to parse (the promise
rejects with a `SyntaxError` whose message is `msg`), or it parses and its
`text` field is as recorded. -/
inductive JsonBody where
  | invalid (msg : String)
  | valid (text : TextField)
deriving DecidableEq, Repr

/-- Outcome of `fetch("/api/ocr", ...)`: either the promise rejects with a
network-level `TypeError` (message `msg`), or a response arrives with the
given status code, status text and body. -/
inductive FetchOutcome where
  | networkError (msg : String)
  | response (status : Nat) (statusText : String) (body : JsonBody)
deriving DecidableEq, Repr

/-- `Response.ok`: true exactly when the status is in the 2xx range. -/
def respOk (status : Nat) : Bool :=
  decide (200 ≤ status) && decide (status < 300)

/-- A platform media track: its identity and whether it is still live.
`MediaStreamTrack.stop()` sets `live := false` and is a no-op on an already
stopped track. -/
structure Track where
  id : Nat
  live : Bool
deriving DecidableEq, Repr

/-- A `canvas.toBlob` encode request: MIME type and quality argument. -/
structure EncodeReq where
  mime : String
  quality : ℚ
deriving DecidableEq, Repr

/-- The component's state: React state hooks, refs, and the observable
platform effects (granted tracks, initiated relay calls, encode requests,
committed mode history). -/
structure AppState where
  mode : Mode
  result : Option String
  error : Option String
  preview : Option String
  /-- `streamRef.current`: the handle to the granted stream's track ids. -/
  stream : Option (List Nat)
  /-- Platform-side media tracks ever granted, with liveness. -/
  tracks : List Track
  /-- `fileInputRef.current.value`. -/
  fileInputValue : String
  /-- Number of `fetch("/api/ocr", ...)` requests initiated. -/
  relayCalls : Nat
  /-- `canvas.toBlob` encode requests issued, in order. -/
  encodeReqs : List EncodeReq
  /-- The committed values of `mode` over time, oldest first. -/
  trace : List Mode
deriving DecidableEq, Repr

/-- `setMode(m)`: React bails out when the value is unchanged; otherwise the
new mode is committed and appended to the history. -/
def setMode (m : Mode) (s : AppState) : AppState :=
  if s.mode = m then s else { s with mode := m, trace := s.trace ++ [m] }

/-- `typeof data.text === "string" ? data.text.trim() : ""` -/
def textOf : TextField → String
  | .str t => t.trim
  | _ => ""

/-- `handleOCR(file)`: sets mode to processing, clears error and result,
initiates the relay `fetch`, and on every completion path (network rejection,
non-2xx response, JSON parse failure, parsed body) sets exactly one of
`result`/`error` and enters mode `result`.  The `catch` arm stores
`err.message` — `"Server error: " + statusText` for the non-ok `throw`, the
`TypeError` message for a network failure, the `SyntaxError` message for a
parse failure. -/
def handleOCR (resp : FetchOutcome) (s : AppState) : AppState :=
  let s0 := setMode .processing s
  let s1 : AppState :=
    { s0 with error := none, result := none, relayCalls := s0.relayCalls + 1 }
  match resp with
  | .networkError msg => setMode .result { s1 with error := some msg }
  | .response status statusText body =>
      if respOk status then
        match body with
        | .invalid msg => setMode .result { s1 with error := some msg }
        | .valid tf => setMode .result { s1 with result := some (textOf tf) }
      else
        setMode .result { s1 with error := some ("Server error: " ++ statusText) }

/-- `handleFileSelect(e)`: `file = e.target.files?.[0]; if (!file) return;`
then a `FileReader` renders the preview data URI and `handleOCR(file)` runs.
`fname` is the value the platform puts in the file input on selection;
`previewData` the data URI the reader produces; `file = none` models no file
selected. -/
def handleFileSelect (file : Option Unit) (fname previewData : String)
    (resp : FetchOutcome) (s : AppState) : AppState :=
  match file with
  | none => s
  | some _ =>
      handleOCR resp
        { s with preview := some previewData, fileInputValue := fname }

/-- `startCamera()`: clears the error, awaits `getUserMedia`; on grant stores
the stream handle and enters camera mode (the deferred `srcObject` bind does
not change component state); on denial sets the fixed error message and
changes nothing else. `granted = some ids` carries the granted stream's fresh
track ids. -/
def startCamera (granted : Option (List Nat)) (s : AppState) : AppState :=
  let s1 : AppState := { s with error := none }
  match granted with
  | some ids =>
      setMode .camera
        { s1 with stream := some ids
                  tracks := s1.tracks ++ ids.map (fun i => ⟨i, true⟩) }
  | none => { s1 with error := some "Camera access denied or unavailable" }

/-- `track.stop()` for each track of the handle: tracks named by the handle
become (or stay) not live. -/
def stopTrack (ids : List Nat) (t : Track) : Track :=
  if t.id ∈ ids then { t with live := false } else t

/-- `stopCamera()`: `streamRef.current?.getTracks().forEach(t => t.stop());
streamRef.current = null;` — the optional chain makes it a no-op on a null
handle. -/
def stopCamera (s : AppState) : AppState :=
  match s.stream with
  | none => s
  | some ids => { s with tracks := s.tracks.map (stopTrack ids), stream := none }

/-- All platform tracks are already stopped. -/
def allStopped (ts : List Track) : Bool :=
  ts.all (fun t => !t.live)

/-- The `canvas.toBlob(cb, "image/jpeg", 0.9)` encode request. -/
def jpegCaptureReq : EncodeReq :=
  ⟨"image/jpeg", 9 / 10⟩

/-- `setPreview(canvas.toDataURL("image/jpeg"))` with the captured frame. -/
def setPreviewTo (frameURL : String) (s : AppState) : AppState :=
  { s with preview := some frameURL }

/-- Issue the `canvas.toBlob(·, "image/jpeg", 0.9)` request. -/
def logEncode (s : AppState) : AppState :=
  { s with encodeReqs := s.encodeReqs ++ [jpegCaptureReq] }

/-- `capturePhoto()`: guard on the video and canvas refs being mounted; draw
the frame, set the preview from it, `stopCamera()`, then request JPEG
encoding at quality 0.9 — in that order.  The `toBlob` callback receives
`encoded`: on `none` (encoding failed) it does nothing; on a blob it calls
`handleOCR` with the capture file. -/
def capturePhoto (mounted : Bool) (frameURL : String) (encoded : Option Unit)
    (resp : FetchOutcome) (s : AppState) : AppState :=
  if mounted then
    let s1 := logEncode (stopCamera (setPreviewTo frameURL s))
    match encoded with
    | none => s1
    | some _ => handleOCR resp s1
  else s

/-- `handleReset()`: `stopCamera()`, then mode home and clear result, error,
preview and the file input's value. -/
def handleReset (s : AppState) : AppState :=
  let s1 := setMode .home (stopCamera s)
  { s1 with result := none, error := none, preview := none, fileInputValue := "" }

/-- The result textarea's `onChange`: `setResult(e.target.value)`. -/
def editResult (t : String) (s : AppState) : AppState :=
  { s with result := some t }

/-- `handleCopy()`: writes to the clipboard, a pure side effect — component
state is unchanged. -/
def handleCopy (s : AppState) : AppState :=
  s

/-- The initial render: `useState("home")`, everything else empty. -/
def init : AppState :=
  { mode := .home, result := none, error := none, preview := none,
    stream := none, tracks := [], fileInputValue := "",
    relayCalls := 0, encodeReqs := [], trace := [.home] }

/-! ## The relay client abstraction (spec §4.2)

`transcribe` is the request/normalisation step of `handleOCR` viewed as the
spec's relay-client operation: it maps the platform outcome of the request to
the `TranscriptionResult` value the state machine stores. -/

/-- `TranscriptionResult`: either `{text}` or `{errorMessage}`. -/
inductive TranscriptionResult where
  | text (t : String)
  | errorMessage (m : String)
deriving DecidableEq, Repr

/-- The normalisation performed by `handleOCR`'s request path (lines 26–41):
network rejection → error with the rejection message; non-2xx → error
`"Server error: " + statusText`; 2xx with unparsable body → error with the
parse message; 2xx parsed → text via `textOf`. -/
def transcribe (resp : FetchOutcome) : TranscriptionResult :=
  match resp with
  | .networkError msg => .errorMessage msg
  | .response status statusText body =>
      if respOk status then
        match body with
        | .invalid msg => .errorMessage msg
        | .valid tf => .text (textOf tf)
      else .errorMessage ("Server error: " ++ statusText)

/-- The `{text}` component of a `TranscriptionResult`, if any. -/
def TranscriptionResult.textOpt : TranscriptionResult → Option String
  | .text t => some t
  | .errorMessage _ => none

/-- The `{errorMessage}` component of a `TranscriptionResult`, if any. -/
def TranscriptionResult.errOpt : TranscriptionResult → Option String
  | .text _ => none
  | .errorMessage m => some m

/-! ## User-reachable states

The rendered UI offers: on home, the upload label (file selection) and the
Scan button (`startCamera`); on camera, the shutter (`capturePhoto`) and the
cancel button (`handleReset`); on result, "Try again" / "Scan again"
(`handleReset`), "Copy text" (`handleCopy`) and the textarea (`editResult`,
rendered only when no error is set).  Processing offers no actions. -/

/-- One user-triggered operation together with the resolution of the platform
calls it awaits. -/
inductive Step : AppState → AppState → Prop
  | selectFile (s : AppState) (fname previewData : String) (resp : FetchOutcome)
      (h : s.mode = .home) :
      Step s (handleFileSelect (some ()) fname previewData resp s)
  | selectNone (s : AppState) (h : s.mode = .home) :
      Step s (handleFileSelect none "" "" (.networkError "") s)
  | startScan (s : AppState) (granted : Option (List Nat)) (h : s.mode = .home) :
      Step s (startCamera granted s)
  | capture (s : AppState) (mounted : Bool) (frameURL : String)
      (encoded : Option Unit) (resp : FetchOutcome) (h : s.mode = .camera) :
      Step s (capturePhoto mounted frameURL encoded resp s)
  | cancelScan (s : AppState) (h : s.mode = .camera) :
      Step s (handleReset s)
  | resetFromResult (s : AppState) (h : s.mode = .result) :
      Step s (handleReset s)
  | edit (s : AppState) (t : String) (h : s.mode = .result) (he : s.error = none) :
      Step s (editResult t s)
  | copy (s : AppState) (h : s.mode = .result) :
      Step s (handleCopy s)

/-- States reachable from the initial render by user operations. -/
inductive Reachable : AppState → Prop
  | init : Reachable init
  | step {s t : AppState} : Reachable s → Step s t → Reachable t

/-! ## Server upload pipeline (`server.js`)

`multer({ fileFilter, limits: { fileSize: 50 * 1024 * 1024 } })` with
`upload.single("image")` on `POST /api/ocr`.  The fileFilter rejection is a
plain `Error` and the size-limit rejection a `MulterError`; neither carries a
`status`/`statusCode` property, and `server.js` installs no error-handling
middleware, so both fall through to Express's default error handler. -/

/-- The uploaded file as multer sees it: MIME type and byte size. -/
structure UploadFile where
  mimetype : String
  size : Nat
deriving DecidableEq, Repr

/-- `limits: { fileSize: 50 * 1024 * 1024 }` — 50 MiB. -/
def maxFileSize : Nat := 50 * 1024 * 1024

/-- Character-list prefix test, the semantics of JS
`String.prototype.startsWith`. -/
def listPrefixEq : List Char → List Char → Bool
  | [], _ => true
  | _ :: _, [] => false
  | a :: as, b :: bs => a == b && listPrefixEq as bs

/-- JS `s.startsWith(pre)` over the characters of the strings. -/
def strStartsWith (s pre : String) : Bool :=
  listPrefixEq pre.data s.data

/-- `fileFilter`: accept exactly when `file.mimetype.startsWith("image/")`. -/
def fileFilter (f : UploadFile) : Bool :=
  strStartsWith f.mimetype "image/"

/-- Outcome of the `upload.single("image")` middleware on a request carrying
a file: rejected by the filter (plain `Error("Only image files are
allowed")`), rejected by the size limit (`MulterError("LIMIT_FILE_SIZE")`),
or accepted with `req.file` set. -/
inductive MulterOutcome where
  | rejectedFilter
  | rejectedSize
  | accepted (f : UploadFile)
deriving DecidableEq, Repr

/-- The multer middleware on one uploaded file. -/
def multerSingle (f : UploadFile) : MulterOutcome :=
  if ¬ fileFilter f then .rejectedFilter
  else if maxFileSize < f.size then .rejectedSize
  else .accepted f

/-- An error reaching Express's default error handler, with its optional
`status`/`statusCode` property. -/
structure HttpError where
  status : Option Nat
deriving DecidableEq, Repr

/-- Express's default (final) error handler: use `err.status`/`err.statusCode`
when it is a valid 4xx/5xx code, otherwise respond 500. -/
def expressDefaultErrorStatus (e : HttpError) : Nat :=
  match e.status with
  | some c => if 400 ≤ c ∧ c < 600 then c else 500
  | none => 500

/-- A `POST /api/ocr` request: either the multipart field `image` is missing,
or it carries one file. -/
inductive OcrRequest where
  | noFile
  | file (f : UploadFile)
deriving DecidableEq, Repr

/-- The HTTP status `POST /api/ocr` responds with: multer rejections fall to
the default error handler (their errors carry no status); with no file the
route returns 400; otherwise 200 on upstream success, 500 on upstream
failure (`upstreamOk` is whether `anthropic.messages.create` succeeds). -/
def postOcrStatus (req : OcrRequest) (upstreamOk : Bool) : Nat :=
  match req with
  | .noFile => 400
  | .file f =>
      match multerSingle f with
      | .rejectedFilter => expressDefaultErrorStatus ⟨none⟩
      | .rejectedSize => expressDefaultErrorStatus ⟨none⟩
      | .accepted _ => if upstreamOk then 200 else 500

/-! ## Mode-transition discipline -/

/-- The permitted mode transitions: home → {camera, processing};
camera → {processing, home}; processing → result; result → home. -/
def allowedEdge : Mode → Mode → Bool
  | .home, .camera => true
  | .home, .processing => true
  | .camera, .processing => true
  | .camera, .home => true
  | .processing, .result => true
  | .result, .home => true
  | _, _ => false

/-- Every consecutive pair of a mode history is a permitted transition. -/
def traceOK : List Mode → Bool
  | [] => true
  | [_] => true
  | a :: b :: rest => allowedEdge a b && traceOK (b :: rest)

/-- The inductive invariant: the committed history only takes permitted
edges, its last entry is the current mode, and at home the stream handle is
null. -/
def Inv (s : AppState) : Prop :=
  traceOK s.trace = true ∧
  s.trace.getLast? = some s.mode ∧
  (s.mode = .home → s.stream = none)

/-! ## Helper lemmas -/

theorem traceOK_snoc (tr : List Mode) (a b : Mode) (h : traceOK tr = true)
    (ha : tr.getLast? = some a) (he : allowedEdge a b = true) :
    traceOK (tr ++ [b]) = true := by
  induction tr with
  | nil => simp at ha
  | cons x xs ih =>
      cases xs with
      | nil =>
          simp [List.getLast?] at ha
          subst ha
          simpa [traceOK] using he
      | cons y ys =>
          have hx : allowedEdge x y = true ∧ traceOK (y :: ys) = true := by
            simpa [traceOK, Bool.and_eq_true] using h
          have ha' : (y :: ys).getLast? = some a := by
            simpa [List.getLast?_cons_cons] using ha
          have := ih hx.2 ha'
          simpa [traceOK, Bool.and_eq_true] using ⟨hx.1, this⟩

theorem setMode_mode (m : Mode) (s : AppState) : (setMode m s).mode = m := by
  unfold setMode
  split
  · next h => exact h
  · rfl

theorem setMode_stream (m : Mode) (s : AppState) :
    (setMode m s).stream = s.stream := by
  unfold setMode
  split <;> rfl

theorem setMode_trace_inv (m : Mode) (s : AppState)
    (h1 : traceOK s.trace = true) (h2 : s.trace.getLast? = some s.mode)
    (he : allowedEdge s.mode m = true) :
    traceOK (setMode m s).trace = true ∧
      (setMode m s).trace.getLast? = some m := by
  unfold setMode
  split
  · next hm => exact ⟨h1, hm ▸ h2⟩
  · exact ⟨traceOK_snoc s.trace s.mode m h1 h2 he, by
      simp [List.getLast?_concat]⟩

theorem handleOCR_mode (resp : FetchOutcome) (s : AppState) :
    (handleOCR resp s).mode = .result := by
  unfold handleOCR
  cases resp with
  | networkError msg => exact setMode_mode _ _
  | response status statusText body =>
      by_cases hok : respOk status = true
      · cases body with
        | invalid msg => simp [hok, setMode_mode]
        | valid tf => simp [hok, setMode_mode]
      · simp [hok, setMode_mode]

theorem handleOCR_stream (resp : FetchOutcome) (s : AppState) :
    (handleOCR resp s).stream = s.stream := by
  unfold handleOCR
  cases resp with
  | networkError msg => simp [setMode_stream]
  | response status statusText body =>
      by_cases hok : respOk status = true
      · cases body with
        | invalid msg => simp [hok, setMode_stream]
        | valid tf => simp [hok, setMode_stream]
      · simp [hok, setMode_stream]

theorem handleOCR_trace_inv (resp : FetchOutcome) (s : AppState)
    (h1 : traceOK s.trace = true) (h2 : s.trace.getLast? = some s.mode)
    (hm : s.mode = .home ∨ s.mode = .camera) :
    traceOK (handleOCR resp s).trace = true ∧
      (handleOCR resp s).trace.getLast? = some .result := by
  have hep : allowedEdge s.mode .processing = true := by
    rcases hm with hm | hm <;> simp [hm, allowedEdge]
  have hstep := setMode_trace_inv .processing s h1 h2 hep
  have hsm := setMode_mode .processing s
  set s0 := setMode .processing s with hs0
  have her : allowedEdge s0.mode .result = true := by
    rw [hsm]; rfl
  unfold handleOCR
  rw [← hs0]
  cases resp with
  | networkError msg =>
      exact setMode_trace_inv .result _ hstep.1 (by simpa [hsm] using hstep.2) (by simp [hsm, allowedEdge])
  | response status statusText body =>
      by_cases hok : respOk status = true
      · cases body with
        | invalid msg =>
            simpa [hok] using
              setMode_trace_inv .result
                { s0 with result := none, error := some msg,
                          relayCalls := s0.relayCalls + 1 } hstep.1
                (by simpa [hsm] using hstep.2) (by simp [hsm, allowedEdge])
        | valid tf =>
            simpa [hok] using
              setMode_trace_inv .result
                { s0 with error := none, result := some (textOf tf),
                          relayCalls := s0.relayCalls + 1 } hstep.1
                (by simpa [hsm] using hstep.2) (by simp [hsm, allowedEdge])
      · simpa [hok] using
          setMode_trace_inv .result
            { s0 with result := none,
                      error := some ("Server error: " ++ statusText),
                      relayCalls := s0.relayCalls + 1 } hstep.1
            (by simpa [hsm] using hstep.2) (by simp [hsm, allowedEdge])

theorem setMode_result (m : Mode) (s : AppState) :
    (setMode m s).result = s.result := by
  unfold setMode
  split <;> rfl

theorem setMode_error (m : Mode) (s : AppState) :
    (setMode m s).error = s.error := by
  unfold setMode
  split <;> rfl

theorem setMode_relayCalls (m : Mode) (s : AppState) :
    (setMode m s).relayCalls = s.relayCalls := by
  unfold setMode
  split <;> rfl

theorem stopCamera_stream (s : AppState) : (stopCamera s).stream = none := by
  cases hs : s.stream <;> simp [stopCamera, hs]

theorem stopCamera_mode (s : AppState) : (stopCamera s).mode = s.mode := by
  cases hs : s.stream <;> simp [stopCamera, hs]

theorem stopCamera_trace (s : AppState) : (stopCamera s).trace = s.trace := by
  cases hs : s.stream <;> simp [stopCamera, hs]

theorem stopCamera_result (s : AppState) : (stopCamera s).result = s.result := by
  cases hs : s.stream <;> simp [stopCamera, hs]

theorem stopCamera_error (s : AppState) : (stopCamera s).error = s.error := by
  cases hs : s.stream <;> simp [stopCamera, hs]

theorem stopCamera_preview (s : AppState) : (stopCamera s).preview = s.preview := by
  cases hs : s.stream <;> simp [stopCamera, hs]

theorem stopCamera_relayCalls (s : AppState) :
    (stopCamera s).relayCalls = s.relayCalls := by
  cases hs : s.stream <;> simp [stopCamera, hs]

theorem stopCamera_encodeReqs (s : AppState) :
    (stopCamera s).encodeReqs = s.encodeReqs := by
  cases hs : s.stream <;> simp [stopCamera, hs]

theorem handleReset_stream (s : AppState) : (handleReset s).stream = none := by
  unfold handleReset
  simp [setMode_stream, stopCamera_stream]

theorem handleReset_mode (s : AppState) : (handleReset s).mode = .home := by
  unfold handleReset
  simp [setMode_mode]

theorem handleReset_trace_inv (s : AppState) (h1 : traceOK s.trace = true)
    (h2 : s.trace.getLast? = some s.mode)
    (hm : s.mode = .camera ∨ s.mode = .result) :
    traceOK (handleReset s).trace = true ∧
      (handleReset s).trace.getLast? = some .home := by
  have hts : (stopCamera s).trace = s.trace := stopCamera_trace s
  have hms : (stopCamera s).mode = s.mode := stopCamera_mode s
  have he : allowedEdge (stopCamera s).mode .home = true := by
    rw [hms]
    rcases hm with hm | hm <;> simp [hm, allowedEdge]
  have h := setMode_trace_inv .home (stopCamera s) (by rw [hts]; exact h1)
    (by rw [hts, hms]; exact h2) he
  exact h

theorem handleOCR_relayCalls (resp : FetchOutcome) (s : AppState) :
    (handleOCR resp s).relayCalls = s.relayCalls + 1 := by
  unfold handleOCR
  cases resp with
  | networkError msg => simp [setMode_relayCalls]
  | response status statusText body =>
      by_cases hok : respOk status = true
      · cases body with
        | invalid msg => simp [hok, setMode_relayCalls]
        | valid tf => simp [hok, setMode_relayCalls]
      · simp [hok, setMode_relayCalls]

theorem handleOCR_result (resp : FetchOutcome) (s : AppState) :
    (handleOCR resp s).result = (transcribe resp).textOpt := by
  unfold handleOCR transcribe
  cases resp with
  | networkError msg => simp [setMode_result, TranscriptionResult.textOpt]
  | response status statusText body =>
      by_cases hok : respOk status = true
      · cases body with
        | invalid msg => simp [hok, setMode_result, TranscriptionResult.textOpt]
        | valid tf => simp [hok, setMode_result, TranscriptionResult.textOpt]
      · simp [hok, setMode_result, TranscriptionResult.textOpt]

theorem handleOCR_error (resp : FetchOutcome) (s : AppState) :
    (handleOCR resp s).error = (transcribe resp).errOpt := by
  unfold handleOCR transcribe
  cases resp with
  | networkError msg => simp [setMode_error, TranscriptionResult.errOpt]
  | response status statusText body =>
      by_cases hok : respOk status = true
      · cases body with
        | invalid msg => simp [hok, setMode_error, TranscriptionResult.errOpt]
        | valid tf => simp [hok, setMode_error, TranscriptionResult.errOpt]
      · simp [hok, setMode_error, TranscriptionResult.errOpt]

theorem stopTrack_of_dead (ids : List Nat) (t : Track) (h : t.live = false) :
    stopTrack ids t = t := by
  cases t
  dsimp only at h
  subst h
  unfold stopTrack
  split <;> rfl

theorem map_stopTrack_of_allStopped (ids : List Nat) (ts : List Track)
    (h : allStopped ts = true) : ts.map (stopTrack ids) = ts := by
  induction ts with
  | nil => rfl
  | cons t ts ih =>
      have hc : (!t.live) = true ∧ allStopped ts = true := by
        simpa [allStopped, Bool.and_eq_true] using h
      have ht : t.live = false := by
        simpa using hc.1
      simp [stopTrack_of_dead ids t ht, ih hc.2]

theorem clear_fields_eq (s : AppState) (h1 : s.result = none) (h2 : s.error = none)
    (h3 : s.preview = none) (h4 : s.fileInputValue = "") :
    ({ s with result := none, error := none, preview := none,
              fileInputValue := "" } : AppState) = s := by
  cases s
  dsimp only at h1 h2 h3 h4
  subst h1; subst h2; subst h3; subst h4
  rfl

/-- Every user operation preserves the inductive invariant. -/
theorem step_inv {s t : AppState} (hst : Step s t) (h : Inv s) : Inv t := by
  obtain ⟨h1, h2, h3⟩ := h
  cases hst with
  | selectFile fname pd resp hm =>
      simp only [handleFileSelect]
      have hinv := handleOCR_trace_inv resp
        { s with preview := some pd, fileInputValue := fname } h1 h2 (Or.inl hm)
      have hmode := handleOCR_mode resp
        { s with preview := some pd, fileInputValue := fname }
      exact ⟨hinv.1, by rw [hmode]; exact hinv.2,
        fun hh => absurd (hmode ▸ hh) (by decide)⟩
  | selectNone hm =>
      exact ⟨h1, h2, h3⟩
  | startScan granted hm =>
      cases granted with
      | none => exact ⟨h1, h2, h3⟩
      | some ids =>
          simp only [startCamera]
          have he : allowedEdge s.mode .camera = true := by
            simp [hm, allowedEdge]
          have hinv := setMode_trace_inv .camera
            { s with error := none, stream := some ids,
                     tracks := s.tracks ++ ids.map (fun i => ⟨i, true⟩) } h1 h2 he
          have hmode := setMode_mode .camera
            { s with error := none, stream := some ids,
                     tracks := s.tracks ++ ids.map (fun i => ⟨i, true⟩) }
          exact ⟨hinv.1, by rw [hmode]; exact hinv.2,
            fun hh => absurd (hmode ▸ hh) (by decide)⟩
  | capture mounted f enc resp hm =>
      cases mounted with
      | false =>
          simp only [capturePhoto, Bool.false_eq_true, if_false]
          exact ⟨h1, h2, h3⟩
      | true =>
          have e1 : (logEncode (stopCamera (setPreviewTo f s))).trace = s.trace := by
            simp [logEncode, setPreviewTo, stopCamera_trace]
          have e2 : (logEncode (stopCamera (setPreviewTo f s))).mode = s.mode := by
            simp [logEncode, setPreviewTo, stopCamera_mode]
          cases enc with
          | none =>
              simp only [capturePhoto, if_true]
              exact ⟨by rw [e1]; exact h1, by rw [e1, e2]; exact h2,
                fun hh => absurd ((e2.symm.trans hh).symm.trans hm) (by decide)⟩
          | some u =>
              simp only [capturePhoto, if_true]
              have hinv := handleOCR_trace_inv resp
                (logEncode (stopCamera (setPreviewTo f s)))
                (by rw [e1]; exact h1) (by rw [e1, e2]; exact h2)
                (Or.inr (by rw [e2]; exact hm))
              have hmode := handleOCR_mode resp
                (logEncode (stopCamera (setPreviewTo f s)))
              exact ⟨hinv.1, by rw [hmode]; exact hinv.2,
                fun hh => absurd (hmode ▸ hh) (by decide)⟩
  | cancelScan hm =>
      have hinv := handleReset_trace_inv s h1 h2 (Or.inl hm)
      have hmode := handleReset_mode s
      exact ⟨hinv.1, by rw [hmode]; exact hinv.2, fun _ => handleReset_stream s⟩
  | resetFromResult hm =>
      have hinv := handleReset_trace_inv s h1 h2 (Or.inr hm)
      have hmode := handleReset_mode s
      exact ⟨hinv.1, by rw [hmode]; exact hinv.2, fun _ => handleReset_stream s⟩
  | edit t' hm he =>
      exact ⟨h1, h2, h3⟩
  | copy hm =>
      exact ⟨h1, h2, h3⟩

/-- Every reachable state satisfies the inductive invariant. -/
theorem reachable_inv {s : AppState} (h : Reachable s) : Inv s := by
  induction h with
  | init => exact ⟨by decide, by decide, fun _ => rfl⟩
  | step _ hst ih => exact step_inv hst ih

/-- `respOk` is exactly the 2xx test. -/
theorem respOk_iff (status : Nat) :
    respOk status = true ↔ (200 ≤ status ∧ status < 300) := by
  simp [respOk]

/-! ## The claims -/

/-- Claim C1: over every sequence of the public operations from the initial
state, every committed Mode change is one of the edges home → {camera,
processing}, camera → {processing, home}, processing → result,
result → home — the full mode history only follows these edges, so
processing is always entered before result and no other transition occurs. -/
theorem mode_transitions_strict (s : AppState) (h : Reachable s) :
    traceOK s.trace = true :=
  (reachable_inv h).1

theorem mode_transitions_strict_check :
    traceOK (capturePhoto true "data:image/jpeg;base64,xyz" (some ())
        (.response 200 "OK" (.valid (.str "Hello")))
        (startCamera (some [0]) init)).trace = true :=
  mode_transitions_strict _
    (Reachable.step
      (Reachable.step Reachable.init (Step.startScan init (some [0]) rfl))
      (Step.capture (startCamera (some [0]) init) true "data:image/jpeg;base64,xyz"
        (some ()) (.response 200 "OK" (.valid (.str "Hello"))) (by decide)))

/-- Claim C2: for every input and every resolution of the request, `handleOCR`
terminates with exactly one of `{text}` (the `result` field set) or
`{errorMessage}` (the `error` field set) — never both, never neither — its
outcome is the `transcribe` normalisation of the response, and it never
escapes without entering mode result (totality of the Lean function embeds
the no-exception guarantee: every path, network failure and parse failure
included, yields a state). -/
theorem transcribe_exactly_one_outcome (s : AppState) (resp : FetchOutcome) :
    (handleOCR resp s).result = (transcribe resp).textOpt ∧
    (handleOCR resp s).error = (transcribe resp).errOpt ∧
    ((transcribe resp).textOpt.isSome = !(transcribe resp).errOpt.isSome) ∧
    (handleOCR resp s).mode = .result := by
  refine ⟨handleOCR_result resp s, handleOCR_error resp s, ?_, handleOCR_mode resp s⟩
  cases transcribe resp <;>
    simp [TranscriptionResult.textOpt, TranscriptionResult.errOpt]

/-- Claim C3: the stream handle is null after every `handleReset`
(`cancelScan`/`reset`), and in every reachable state with mode home the
stream handle is null. -/
theorem stream_null_at_home (s : AppState) :
    (handleReset s).stream = none ∧
    (Reachable s → s.mode = .home → s.stream = none) :=
  ⟨handleReset_stream s, fun hr hm => (reachable_inv hr).2.2 hm⟩

theorem stream_null_at_home_check :
    (handleReset (handleReset (startCamera (some [3]) init))).stream = none ∧
    (handleReset (startCamera (some [3]) init)).stream = none :=
  ⟨(stream_null_at_home (handleReset (startCamera (some [3]) init))).1,
   (stream_null_at_home (handleReset (startCamera (some [3]) init))).2
     (Reachable.step
       (Reachable.step Reachable.init (Step.startScan init (some [3]) rfl))
       (Step.cancelScan (startCamera (some [3]) init) (by decide)))
     (by decide)⟩

/-- Claim C4: `capturePhoto` sets the preview from the captured frame,
releases the camera session, then requests JPEG encoding at quality 0.9 and
— only if a blob is produced — initiates the relay, in that order
(`capturePhoto true f (some ()) resp s = handleOCR resp (logEncode
(stopCamera (setPreviewTo f s)))` states the order structurally).  The
release happens whether or not encoding succeeds; on encoding failure
(`none` blob) no relay call is made, mode / result / error are unchanged,
and the function is total (no exception).  When the refs are unmounted
nothing happens at all. -/
theorem capturePhoto_release_then_encode (s : AppState) (f : String)
    (enc : Option Unit) (resp : FetchOutcome) :
    (capturePhoto true f none resp s).stream = none ∧
    (capturePhoto true f (some ()) resp s).stream = none ∧
    (capturePhoto true f none resp s).preview = some f ∧
    (capturePhoto true f none resp s).mode = s.mode ∧
    (capturePhoto true f none resp s).relayCalls = s.relayCalls ∧
    (capturePhoto true f none resp s).result = s.result ∧
    (capturePhoto true f none resp s).error = s.error ∧
    (capturePhoto true f none resp s).encodeReqs = s.encodeReqs ++ [jpegCaptureReq] ∧
    jpegCaptureReq.mime = "image/jpeg" ∧
    jpegCaptureReq.quality = 9 / 10 ∧
    (capturePhoto true f (some ()) resp s).relayCalls = s.relayCalls + 1 ∧
    capturePhoto true f (some ()) resp s
      = handleOCR resp (logEncode (stopCamera (setPreviewTo f s))) ∧
    capturePhoto false f enc resp s = s := by
  refine ⟨?_, ?_, ?_, ?_, ?_, ?_, ?_, ?_, rfl, rfl, ?_, ?_, ?_⟩
  · simp [capturePhoto, logEncode, stopCamera_stream]
  · simp [capturePhoto, handleOCR_stream, logEncode, stopCamera_stream]
  · simp [capturePhoto, logEncode, stopCamera_preview, setPreviewTo]
  · simp [capturePhoto, logEncode, stopCamera_mode, setPreviewTo]
  · simp [capturePhoto, logEncode, stopCamera_relayCalls, setPreviewTo]
  · simp [capturePhoto, logEncode, stopCamera_result, setPreviewTo]
  · simp [capturePhoto, logEncode, stopCamera_error, setPreviewTo]
  · simp [capturePhoto, logEncode, stopCamera_encodeReqs, setPreviewTo]
  · simp [capturePhoto, handleOCR_relayCalls, logEncode, stopCamera_relayCalls,
      setPreviewTo]
  · simp [capturePhoto]
  · simp [capturePhoto]

/-- Claim C5: for every response with a non-2xx status, `handleOCR` stores the
error message `"Server error: " + statusText` — built from the status text
alone, whatever the body holds — clears the result, and enters mode result. -/
theorem non2xx_server_error (s : AppState) (status : Nat) (statusText : String)
    (body : JsonBody) (h : ¬ (200 ≤ status ∧ status < 300)) :
    (handleOCR (.response status statusText body) s).error
        = some ("Server error: " ++ statusText) ∧
    (handleOCR (.response status statusText body) s).mode = .result ∧
    (handleOCR (.response status statusText body) s).result = none := by
  have hok : respOk status = false := by
    cases hr : respOk status with
    | false => rfl
    | true => exact absurd ((respOk_iff status).mp hr) h
  refine ⟨?_, handleOCR_mode _ _, ?_⟩
  · rw [handleOCR_error]
    simp [transcribe, hok, TranscriptionResult.errOpt]
  · rw [handleOCR_result]
    simp [transcribe, hok, TranscriptionResult.textOpt]

theorem non2xx_server_error_check :
    (handleOCR (.response 500 "Internal Server Error" (.valid .absent)) init).error
        = some ("Server error: " ++ "Internal Server Error") ∧
    (handleOCR (.response 500 "Internal Server Error" (.valid .absent)) init).mode
        = .result ∧
    (handleOCR (.response 500 "Internal Server Error" (.valid .absent)) init).result
        = none :=
  non2xx_server_error init 500 "Internal Server Error" (.valid .absent) (by decide)

/-- Claim C6: for every 2xx response whose parsed body has a string `text`
field, `handleOCR` stores the trimmed field as the result; when the field is
absent or not a string it stores the empty string as a successful
transcription — never an error message. -/
theorem success_text_leniency (s : AppState) (status : Nat) (st t : String)
    (h : 200 ≤ status ∧ status < 300) :
    (handleOCR (.response status st (.valid (.str t))) s).result = some t.trim ∧
    (handleOCR (.response status st (.valid (.str t))) s).error = none ∧
    (handleOCR (.response status st (.valid .absent)) s).result = some "" ∧
    (handleOCR (.response status st (.valid .absent)) s).error = none ∧
    (handleOCR (.response status st (.valid .nonString)) s).result = some "" ∧
    (handleOCR (.response status st (.valid .nonString)) s).error = none := by
  have hok : respOk status = true := (respOk_iff status).mpr h
  refine ⟨?_, ?_, ?_, ?_, ?_, ?_⟩ <;>
    simp [handleOCR_result, handleOCR_error, transcribe, hok, textOf,
      TranscriptionResult.textOpt, TranscriptionResult.errOpt]

theorem success_text_leniency_check :
    (handleOCR (.response 200 "OK" (.valid (.str " Hello "))) init).result
        = some (" Hello ".trim) ∧
    (handleOCR (.response 200 "OK" (.valid (.str " Hello "))) init).error = none ∧
    (handleOCR (.response 200 "OK" (.valid .absent)) init).result = some "" ∧
    (handleOCR (.response 200 "OK" (.valid .absent)) init).error = none ∧
    (handleOCR (.response 200 "OK" (.valid .nonString)) init).result = some "" ∧
    (handleOCR (.response 200 "OK" (.valid .nonString)) init).error = none :=
  success_text_leniency init 200 "OK" " Hello " (by decide)

/-- Claim C7 as stated is false on the code: a `POST /api/ocr` upload with a
non-image MIME type is rejected with HTTP 500, not a 4xx — the multer
fileFilter rejection is a plain `Error` carrying no status, `server.js`
installs no error-handling middleware, and Express's default error handler
answers 500. -/
theorem upload_reject_4xx_fails :
    postOcrStatus (.file ⟨"text/plain", 1024⟩) true = 500 ∧
    ¬ (400 ≤ postOcrStatus (.file ⟨"text/plain", 1024⟩) true ∧
        postOcrStatus (.file ⟨"text/plain", 1024⟩) true < 500) := by
  decide

/-- Claim C7, amended: for every `POST /api/ocr` upload whose file has a
non-image MIME type or exceeds 50 MiB, the server rejects the request with
HTTP 500 via Express's default error handler (neither rejection error
carries a status code) — in particular it never responds 2xx for these
rejections. -/
theorem upload_reject_500 (f : UploadFile) (u : Bool)
    (h : fileFilter f = false ∨ maxFileSize < f.size) :
    postOcrStatus (.file f) u = 500 := by
  unfold postOcrStatus multerSingle
  rcases h with h | h
  · simp [h, expressDefaultErrorStatus]
  · by_cases hf : fileFilter f = true
    · simp [hf, h, expressDefaultErrorStatus]
    · simp [hf, expressDefaultErrorStatus]

theorem upload_reject_500_check :
    maxFileSize < 52428801 ∧
    postOcrStatus (.file ⟨"image/png", 52428801⟩) true = 500 :=
  ⟨by decide, upload_reject_500 ⟨"image/png", 52428801⟩ true (Or.inr (by decide))⟩

/-- Claim C8: `stopCamera` is idempotent and safe on every state: calling it
twice equals calling it once, the handle is null afterwards, on a null
handle it performs no action at all, and on a handle whose tracks are all
already stopped it leaves the platform tracks untouched (stopping a stopped
track is a no-op); totality embeds "raises no error". -/
theorem stopCamera_idempotent_safe (s : AppState) :
    stopCamera (stopCamera s) = stopCamera s ∧
    (stopCamera s).stream = none ∧
    (s.stream = none → stopCamera s = s) ∧
    (allStopped s.tracks = true → (stopCamera s).tracks = s.tracks) := by
  refine ⟨?_, stopCamera_stream s, ?_, ?_⟩
  · cases hs : s.stream <;> simp [stopCamera, hs]
  · intro h
    simp [stopCamera, h]
  · intro h
    cases hs : s.stream with
    | none => simp [stopCamera, hs]
    | some ids => simp [stopCamera, hs, map_stopTrack_of_allStopped ids s.tracks h]

theorem stopCamera_idempotent_safe_check :
    stopCamera init = init ∧ (stopCamera init).tracks = init.tracks :=
  ⟨(stopCamera_idempotent_safe init).2.2.1 rfl,
   (stopCamera_idempotent_safe init).2.2.2 rfl⟩

/-- Claim C9: `handleReset` is idempotent — running it twice in a row yields
exactly the same state as running it once (after the first run the mode is
home, the stream handle is null, and result, error, preview and the file
input value are already cleared, so the second run changes nothing);
totality embeds "no error". -/
theorem reset_idempotent (s : AppState) :
    handleReset (handleReset s) = handleReset s := by
  have hstream : (handleReset s).stream = none := handleReset_stream s
  have hmode : (handleReset s).mode = .home := handleReset_mode s
  have h1 : stopCamera (handleReset s) = handleReset s := by
    simp [stopCamera, hstream]
  have h2 : setMode .home (stopCamera (handleReset s)) = handleReset s := by
    rw [h1]
    simp [setMode, hmode]
  show ({ setMode .home (stopCamera (handleReset s)) with
          result := none, error := none, preview := none,
          fileInputValue := "" } : AppState) = handleReset s
  rw [h2]
  exact clear_fields_eq (handleReset s) rfl rfl rfl rfl

/-- Claim C10: for every 2xx response whose body is not valid JSON,
`handleOCR` resolves to an error carrying the parse-failure description
(the `SyntaxError` message), clears the result, and enters mode result — it
is total (no crash or hang) and never produces a `{text}` outcome. -/
theorem invalid_json_resolves_error (s : AppState) (status : Nat)
    (st msg : String) (h : 200 ≤ status ∧ status < 300) :
    (handleOCR (.response status st (.invalid msg)) s).error = some msg ∧
    (handleOCR (.response status st (.invalid msg)) s).mode = .result ∧
    (handleOCR (.response status st (.invalid msg)) s).result = none := by
  have hok : respOk status = true := (respOk_iff status).mpr h
  refine ⟨?_, handleOCR_mode _ _, ?_⟩
  · rw [handleOCR_error]
    simp [transcribe, hok, TranscriptionResult.errOpt]
  · rw [handleOCR_result]
    simp [transcribe, hok, TranscriptionResult.textOpt]

theorem invalid_json_resolves_error_check :
    (handleOCR (.response 200 "OK" (.invalid "Unexpected end of JSON input")) init).error
        = some "Unexpected end of JSON input" ∧
    (handleOCR (.response 200 "OK" (.invalid "Unexpected end of JSON input")) init).mode
        = .result ∧
    (handleOCR (.response 200 "OK" (.invalid "Unexpected end of JSON input")) init).result
        = none :=
  invalid_json_resolves_error init 200 "OK" "Unexpected end of JSON input" (by decide)

end Inkling
